import Mathlib

/-!
Shallow embedding of the pwime GUI core (`src/pwime/gui/imgui_main.py`).

The embedding keeps the source's names where Lean allows it:

* `OurAssetManager` / `get_file` model the memoizing resource cache
  (lines 23-33).  The external decoder `get_parsed_asset` is a parameter
  `decode`; the dict `memory_files` is an association list built in
  insertion order.  Two ghost logs instrument the state: `invocations`
  records every id handed to the decoder, `returns` records every node a
  successful `get_file` call returned.
* `GuiState` / `load_iso` model session loading (lines 36-48), with the
  external `AssetManager.all_asset_ids` / `get_asset_type` calls bundled
  into a `ContainerOps` parameter.  Python exceptions are `Except` values.
* `PValue` models a decoded property tree (`BaseProperty`: a composite
  value exposing named fields, or a terminal value with a textual
  representation) and `_render_property` models the recursive table walk
  of lines 54-78.  The imgui expansion state returned by `tree_node_ex`
  is a ghost oracle `e` over the path of field names; `path` and `depth`
  are ghost parameters recording where the walk is.
* `DockableWindow` and the `_create_dock_window_for_*` constructors model
  lines 94-151; a `functools.partial` closure is reified as the `GuiFn`
  inductive.
* `PanelState` with `append_pending_dock` / `_pre_new_frame` models the
  pending-dock queue of lines 122-127 and the frame-boundary flush of
  lines 223-227 (`dockable_windows` is the live list held by the
  windowing backend's runner params, `pending_new_docks` the queue held
  in `GuiState`).
-/

namespace Pwime

/-- A decoded property value: either a terminal value with its runtime
type name and textual representation (`str(item)`), or a composite
`BaseProperty` exposing an ordered list of named fields
(`dataclasses.fields`). -/
inductive PValue where
  | leaf (type_name : String) (text : String)
  | prop (type_name : String) (fields : List (String × PValue))

/-- The runtime type name shown in the Type column: `type(item).__name__`. -/
def PValue.typeName : PValue → String
  | .leaf tn _ => tn
  | .prop tn _ => tn

/-- A `BaseProperty` is rendered through its ordered field list. -/
abbrev BaseProperty := List (String × PValue)

/-- One emitted table row: the ghost nesting depth, the field name
column, the runtime type-name column and the value column. -/
structure Row where
  depth : Nat
  name : String
  type_name : String
  value : String
deriving DecidableEq

/-- The row `_render_property` emits for one field: name, runtime type
name, and `str(item)` for a leaf or the `"--"` placeholder for a
composite (lines 66-74). -/
def fieldRow (depth : Nat) (name : String) (v : PValue) : Row :=
  { depth := depth, name := name, type_name := v.typeName,
    value := match v with
      | .leaf _ t => t
      | .prop _ _ => "--" }

/-- `_render_property` (lines 54-78): one row per field of the dataclass,
in declared order; when the field value is itself a `BaseProperty`
(`is_struct`) and its tree node is open, the walk recurses into it right
after the field's row, before the next sibling field. -/
def _render_property (e : List String → Bool) (path : List String) (depth : Nat) :
    BaseProperty → List Row
  | [] => []
  | (n, PValue.leaf tn tx) :: rest =>
      fieldRow depth n (PValue.leaf tn tx) :: _render_property e path depth rest
  | (n, PValue.prop tn cfs) :: rest =>
      fieldRow depth n (PValue.prop tn cfs) ::
        ((if e (path ++ [n]) then _render_property e (path ++ [n]) (depth + 1) cfs else []) ++
          _render_property e path depth rest)

/-- The resource cache `OurAssetManager` (lines 23-28): the dict
`memory_files` plus two ghost logs, the ids passed to the external
decoder `get_parsed_asset` and the `(id, node)` pairs successful
`get_file` calls returned. -/
structure OurAssetManager (Node : Type) where
  memory_files : List (Nat × Node)
  invocations : List Nat
  returns : List (Nat × Node)
deriving DecidableEq

/-- Dict lookup in `memory_files` (first matching key). -/
def lookupCache {Node : Type} : List (Nat × Node) → Nat → Option Node
  | [], _ => none
  | (k, v) :: rest, path => if k = path then some v else lookupCache rest path

/-- `OurAssetManager.get_file` (lines 30-33): on a hit return the cached
node; on a miss invoke the decoder with the id and the type hint, store
the result keyed by the id and return it; a decoder failure propagates
and stores nothing. -/
def get_file {Node : Type} (decode : Nat → String → Except String Node)
    (s : OurAssetManager Node) (path : Nat) (type_hint : String) :
    Except String Node × OurAssetManager Node :=
  match lookupCache s.memory_files path with
  | some n => (Except.ok n, { s with returns := s.returns ++ [(path, n)] })
  | none =>
      let s' := { s with invocations := s.invocations ++ [path] }
      match decode path type_hint with
      | Except.error err => (Except.error err, s')
      | Except.ok n =>
          (Except.ok n,
            { s' with
              memory_files := s'.memory_files ++ [(path, n)],
              returns := s'.returns ++ [(path, n)] })

/-- One session step: perform a `get_file` call, keep the cache state. -/
def callStep {Node : Type} (decode : Nat → String → Except String Node)
    (s : OurAssetManager Node) (c : Nat × String) : OurAssetManager Node :=
  (get_file decode s c.1 c.2).2

/-- A session: a fresh manager (`__init__`, line 28, empty dict) followed
by a sequence of `get_file` calls. -/
def runSession {Node : Type} (decode : Nat → String → Except String Node)
    (cs : List (Nat × String)) : OurAssetManager Node :=
  cs.foldl (callStep decode) ⟨[], [], []⟩

/-- The external enumeration and classification calls `load_iso` makes on
the freshly constructed manager: `all_asset_ids()` and
`get_asset_type(i)`, each of which may raise. -/
structure ContainerOps where
  all_asset_ids : Except String (List Nat)
  get_asset_type : Nat → Except String String

/-- The generator expression of lines 46-48: keep, in enumeration order,
every id whose declared type is `"MLVL"`; a classification failure
aborts the whole comprehension. -/
def filterMlvl (g : Nat → Except String String) : List Nat → Except String (List Nat)
  | [] => Except.ok []
  | i :: rest =>
      match g i with
      | Except.error err => Except.error err
      | Except.ok t =>
          match filterMlvl g rest with
          | Except.error err => Except.error err
          | Except.ok tail => Except.ok (if t = "MLVL" then i :: tail else tail)

/-- Enumerate the container then classify each id (lines 46-48). -/
def buildMlvls (ops : ContainerOps) : Except String (List Nat) :=
  match ops.all_asset_ids with
  | Except.error err => Except.error err
  | Except.ok ids => filterMlvl ops.get_asset_type ids

/-- The session fields of `GuiState` the load path touches (lines 36-42):
the current cache and the asset index `mlvls`. -/
structure GuiState (Node : Type) where
  asset_manager : Option (OurAssetManager Node)
  mlvls : List Nat
deriving DecidableEq

/-- `GuiState.load_iso` (lines 44-48): first replace `asset_manager` with
a freshly constructed (empty-cache) manager, then build `mlvls` from the
enumeration; an enumeration or classification exception propagates
(second component `some err`) after the manager assignment already
happened, leaving `mlvls` at its previous value. -/
def load_iso {Node : Type} (ops : ContainerOps) (s : GuiState Node) :
    GuiState Node × Option String :=
  let s1 : GuiState Node := { s with asset_manager := some ⟨[], [], []⟩ }
  match buildMlvls ops with
  | Except.error err => (s1, some err)
  | Except.ok ids => ({ s1 with mlvls := ids }, none)

/-- A script object inside an area layer: display name, instance id,
runtime type name, and the (externally decoded, fallible) property tree
`get_properties()` returns. -/
structure ScriptInstance where
  name : String
  id : Nat
  type_name : String
  get_properties : Except String PValue

/-- An area layer (fields of the external `Area` the core reads). -/
structure Layer where
  name : String
  has_parent : Bool
  instances : List ScriptInstance

/-- An area: display name, its MREA asset id, and its layers. -/
structure Area where
  name : String
  mrea_asset_id : Nat
  all_layers : List Layer

/-- The failure `mlvl.world_name` may raise (line 144). -/
inductive UnknownAssetId where
  | mk

/-- A decoded world file: its (fallible) display name and its areas. -/
structure Mlvl where
  world_name : Except UnknownAssetId String
  areas : List Area

/-- A reified `functools.partial` closure: which renderer a dockable
window's `gui_function_` binds, and to which node. -/
inductive GuiFn where
  | render_script_instance (inst : ScriptInstance)
  | render_area (area : Area)
  | render_mlvl (mlvl : Mlvl) (mlvl_id : Nat)
  | main_gui

/-- `hello_imgui.DockableWindow` as the core constructs it: a label, a
dock-space name and a bound render callback. -/
structure DockableWindow where
  label : String
  dock_space_name : String
  gui_function : GuiFn

/-- `_render_script_instance` (lines 81-91): fetch the instance's
properties (which may raise) and walk them with `_render_property`; no
failure is caught here. -/
def _render_script_instance (e : List String → Bool) (inst : ScriptInstance) :
    Except String (List Row) :=
  match inst.get_properties with
  | Except.error err => Except.error err
  | Except.ok props =>
      Except.ok (match props with
        | PValue.leaf _ _ => []
        | PValue.prop _ fs => _render_property e [] 0 fs)

/-- `_create_dock_window_for_instance` (lines 94-99): the label is the
f-string `"{instance.name} - {instance.id} ({area.name})"`. -/
def _create_dock_window_for_instance (area : Area) (inst : ScriptInstance) :
    DockableWindow :=
  { label := inst.name ++ " - " ++ toString inst.id ++ " (" ++ area.name ++ ")",
    dock_space_name := "MainDockSpace",
    gui_function := GuiFn.render_script_instance inst }

/-- `_create_dock_window_for_area` (lines 132-137): the label is the bare
`area.name`. -/
def _create_dock_window_for_area (area : Area) : DockableWindow :=
  { label := area.name,
    dock_space_name := "MainDockSpace",
    gui_function := GuiFn.render_area area }

/-- The `f"{mlvl_id:08x}"` format: lowercase hex, zero-padded to at least
eight digits. -/
def hex8 (n : Nat) : String :=
  let ds := Nat.toDigits 16 n
  String.mk (List.replicate (8 - ds.length) '0' ++ ds)

/-- `_create_dock_window_for_mlvl` (lines 140-151): the label is
`mlvl.world_name`, falling back to `"MLVL {mlvl_id:08x}"` when reading
the name raises `UnknownAssetId`.  The source resolves `mlvl` through
`state.asset_manager.get_file(mlvl_id, Mlvl)`; the resolved node is
passed in here. -/
def _create_dock_window_for_mlvl (mlvl : Mlvl) (mlvl_id : Nat) : DockableWindow :=
  { label := match mlvl.world_name with
      | Except.ok n => n
      | Except.error _ => "MLVL " ++ hex8 mlvl_id,
    dock_space_name := "MainDockSpace",
    gui_function := GuiFn.render_mlvl mlvl mlvl_id }

/-- The two panel collections: the live list the windowing backend
iterates (`runner params docking_params.dockable_windows`) and the
pending queue `GuiState.pending_new_docks`. -/
structure PanelState where
  dockable_windows : List DockableWindow
  pending_new_docks : List DockableWindow

/-- One panel-open request during a render pass:
`state.pending_new_docks.append(...)` (lines 127, 172, 198); the live
list is not touched. -/
def append_pending_dock (s : PanelState) (w : DockableWindow) : PanelState :=
  { s with pending_new_docks := s.pending_new_docks ++ [w] }

/-- A sequence of panel-open requests, in call order. -/
def append_pending_docks (s : PanelState) (ws : List DockableWindow) : PanelState :=
  ws.foldl append_pending_dock s

/-- `_pre_new_frame` (lines 223-227): when the pending queue is
non-empty, rebind the live list to `live ++ pending` and clear the
queue; when it is empty, do nothing. -/
def _pre_new_frame (s : PanelState) : PanelState :=
  if s.pending_new_docks.isEmpty then s
  else
    { dockable_windows := s.dockable_windows ++ s.pending_new_docks,
      pending_new_docks := [] }

/-- Is the declared type of id `i` the string `"MLVL"`?  This is the
predicate the generator expression of lines 46-48 filters with, assuming
classification succeeds. -/
def isMlvl (g : Nat → Except String String) (i : Nat) : Bool :=
  match g i with
  | Except.ok t => t == "MLVL"
  | Except.error _ => false

/-- The invariant the memoizing cache maintains: the decoder was invoked
exactly once per stored key, in storage order; stored keys are distinct;
and every node a call returned is the node stored under its id. -/
def CacheInv {Node : Type} (s : OurAssetManager Node) : Prop :=
  s.invocations = s.memory_files.map Prod.fst ∧
  (s.memory_files.map Prod.fst).Nodup ∧
  ∀ p ∈ s.returns, lookupCache s.memory_files p.1 = some p.2

/-- Decoder stub used by concrete witnesses: always succeeds. -/
def decode₀ : Nat → String → Except String Nat := fun i _ => Except.ok (i + 100)

/-- Decoder stub used by concrete witnesses: always fails. -/
def decodeFail : Nat → String → Except String Nat := fun _ _ => Except.error "parse error"

/-- The initial `File List` window registered by `run_gui` (line 261). -/
def fileListWindow : DockableWindow :=
  { label := "File List", dock_space_name := "MainDockSpace", gui_function := GuiFn.main_gui }

/-- A container with one id whose classification fails. -/
def failingOps : ContainerOps :=
  ⟨Except.ok [5], fun _ => Except.error "unable to classify"⟩

/-- A previously loaded session: one cached node, one indexed id. -/
def prevSession : GuiState Nat := ⟨some ⟨[(7, 42)], [7], [(7, 42)]⟩, [7]⟩

/-- A container enumerating two ids, only the first of MLVL type. -/
def smallOps : ContainerOps :=
  ⟨Except.ok [1, 2], fun i => Except.ok (if i = 1 then "MLVL" else "TXTR")⟩

/-- A script instance whose property decode fails. -/
def brokenInstance : ScriptInstance := ⟨"Broken", 1, "Actor", Except.error "boom"⟩

/-- Expansion oracle for the renderer witnesses: only field `b` is open. -/
def expandB : List String → Bool := fun p => p == ["b"]

/-- The two declared fields of the specification example: `a` a leaf,
`b` a composite with one child field `x`. -/
def exFields : BaseProperty :=
  [("a", PValue.leaf "int" "3"), ("b", PValue.prop "Sub" [("x", PValue.leaf "int" "1")])]

theorem lookupCache_append_of_some {Node : Type} {l₁ l₂ : List (Nat × Node)} {k : Nat}
    {v : Node} (h : lookupCache l₁ k = some v) : lookupCache (l₁ ++ l₂) k = some v := by
  induction l₁ with
  | nil => simp [lookupCache] at h
  | cons p rest ih =>
    obtain ⟨a, b⟩ := p
    by_cases ha : a = k
    · simp [lookupCache, ha] at h ⊢
      exact h
    · simp [lookupCache, ha] at h ⊢
      exact ih h

theorem lookupCache_append_of_none {Node : Type} {l₁ : List (Nat × Node)} {k : Nat}
    (l₂ : List (Nat × Node)) (h : lookupCache l₁ k = none) :
    lookupCache (l₁ ++ l₂) k = lookupCache l₂ k := by
  induction l₁ with
  | nil => simp
  | cons p rest ih =>
    obtain ⟨a, b⟩ := p
    by_cases ha : a = k
    · simp [lookupCache, ha] at h
    · simp [lookupCache, ha] at h ⊢
      exact ih h

theorem not_mem_keys_of_lookupCache_none {Node : Type} :
    ∀ (l : List (Nat × Node)) (k : Nat), lookupCache l k = none → k ∉ l.map Prod.fst := by
  intro l k
  induction l with
  | nil => simp
  | cons p rest ih =>
    obtain ⟨a, b⟩ := p
    intro h hmem
    by_cases ha : a = k
    · simp [lookupCache, ha] at h
    · rw [List.map_cons, List.mem_cons] at hmem
      rcases hmem with hmem | hmem
      · exact ha hmem.symm
      · exact ih (by simpa [lookupCache, ha] using h) hmem

theorem cacheInv_step {Node : Type} (decode : Nat → String → Except String Node)
    (hOk : ∀ id hint, ∃ n, decode id hint = Except.ok n)
    (s : OurAssetManager Node) (c : Nat × String) (hs : CacheInv s) :
    CacheInv (callStep decode s c) := by
  obtain ⟨h1, h2, h3⟩ := hs
  unfold callStep get_file
  cases hl : lookupCache s.memory_files c.1 with
  | some n =>
    refine ⟨h1, h2, ?_⟩
    intro p hp
    simp only [List.mem_append, List.mem_singleton] at hp
    rcases hp with hp | rfl
    · exact h3 p hp
    · exact hl
  | none =>
    obtain ⟨n, hd⟩ := hOk c.1 c.2
    rw [hd]
    refine ⟨?_, ?_, ?_⟩
    · simp [h1]
    · have hk : c.1 ∉ s.memory_files.map Prod.fst :=
        not_mem_keys_of_lookupCache_none s.memory_files c.1 hl
      simp [List.nodup_append, h2, hk]
    · intro p hp
      simp only [List.mem_append, List.mem_singleton] at hp
      rcases hp with hp | rfl
      · exact lookupCache_append_of_some (h3 p hp)
      · rw [lookupCache_append_of_none _ hl]
        simp [lookupCache]

theorem cacheInv_runSession {Node : Type} (decode : Nat → String → Except String Node)
    (hOk : ∀ id hint, ∃ n, decode id hint = Except.ok n) (cs : List (Nat × String)) :
    CacheInv (runSession decode cs) := by
  have hgen : ∀ (cs : List (Nat × String)) (s : OurAssetManager Node),
      CacheInv s → CacheInv (cs.foldl (callStep decode) s) := by
    intro cs
    induction cs with
    | nil => intro s hs; exact hs
    | cons c rest ih => intro s hs; exact ih _ (cacheInv_step decode hOk s c hs)
  refine hgen cs ⟨[], [], []⟩ ⟨rfl, List.nodup_nil, ?_⟩
  intro p hp
  simp at hp

/-- Claim C2: in one session, the decoder is invoked at most once per
asset id, and any two `get_file` calls for the same id return the same
node (the one stored in the cache for that id). -/
theorem get_file_memoization {Node : Type} (decode : Nat → String → Except String Node)
    (hOk : ∀ id hint, ∃ n, decode id hint = Except.ok n) (cs : List (Nat × String)) :
    (∀ id, (runSession decode cs).invocations.count id ≤ 1) ∧
    (∀ id n₁ n₂, (id, n₁) ∈ (runSession decode cs).returns →
      (id, n₂) ∈ (runSession decode cs).returns → n₁ = n₂) := by
  obtain ⟨h1, h2, h3⟩ := cacheInv_runSession decode hOk cs
  constructor
  · intro id
    rw [h1]
    exact List.nodup_iff_count_le_one.mp h2 id
  · intro id n₁ n₂ hm₁ hm₂
    have e₁ := h3 _ hm₁
    have e₂ := h3 _ hm₂
    rw [e₁] at e₂
    exact Option.some.inj e₂

/-- Witness for C2 at a concrete session: id 1 resolved twice, id 2
once; the decoder ran at most once for id 1. -/
theorem get_file_memoization_witness :
    (runSession decode₀ [(1, "Mlvl"), (1, "Mrea"), (2, "Mlvl")]).invocations.count 1 ≤ 1 ∧
    (runSession decode₀ [(1, "Mlvl"), (1, "Mrea"), (2, "Mlvl")]).invocations = [1, 2] :=
  ⟨(get_file_memoization decode₀ (fun i _ => ⟨i + 100, rfl⟩)
      [(1, "Mlvl"), (1, "Mrea"), (2, "Mlvl")]).1 1,
   by decide⟩

/-- Claim C5: a `get_file` call for an id already cached returns the
cached node unconditionally; after resolving an id under hint `A`, a
second call under a different hint `B` returns the node decoded under
`A` with no further decoder invocation. -/
theorem get_file_hit_ignores_hint {Node : Type} (decode : Nat → String → Except String Node)
    (s : OurAssetManager Node) (id : Nat) (hintA hintB : String) (n : Node)
    (hmiss : lookupCache s.memory_files id = none)
    (hdec : decode id hintA = Except.ok n) :
    (get_file decode s id hintA).1 = Except.ok n ∧
    (get_file decode (get_file decode s id hintA).2 id hintB).1 = Except.ok n ∧
    (get_file decode (get_file decode s id hintA).2 id hintB).2.invocations
      = s.invocations ++ [id] ∧
    (get_file decode (get_file decode s id hintA).2 id hintB).2.memory_files
      = s.memory_files ++ [(id, n)] := by
  have hhit : lookupCache (s.memory_files ++ [(id, n)]) id = some n := by
    rw [lookupCache_append_of_none _ hmiss]
    simp [lookupCache]
  refine ⟨?_, ?_, ?_, ?_⟩ <;>
    simp [get_file, hmiss, hdec, hhit]

/-- Witness for C5: resolving id 1 under hint `Mlvl` then hint `Area`
returns the node decoded under `Mlvl` both times, with one invocation. -/
theorem get_file_hit_ignores_hint_witness :
    lookupCache (([] : List (Nat × Nat))) 1 = none ∧
    (get_file decode₀ (⟨[], [], []⟩ : OurAssetManager Nat) 1 "Mlvl").1 = Except.ok 101 ∧
    (get_file decode₀ (get_file decode₀ (⟨[], [], []⟩ : OurAssetManager Nat) 1 "Mlvl").2
        1 "Area").1 = Except.ok 101 :=
  ⟨rfl,
   (get_file_hit_ignores_hint decode₀ ⟨[], [], []⟩ 1 "Mlvl" "Area" 101 rfl rfl).1,
   (get_file_hit_ignores_hint decode₀ ⟨[], [], []⟩ 1 "Mlvl" "Area" 101 rfl rfl).2.1⟩

/-- Claim C9: when the decoder fails on a miss, the failure propagates
to the caller, `memory_files` and the returns log are exactly as before
the call, and a later call for the same id invokes the decoder again. -/
theorem get_file_decoder_failure {Node : Type} (decode : Nat → String → Except String Node)
    (s : OurAssetManager Node) (id : Nat) (hint : String) (err : String)
    (hmiss : lookupCache s.memory_files id = none)
    (hdec : decode id hint = Except.error err) :
    get_file decode s id hint
      = (Except.error err, { s with invocations := s.invocations ++ [id] }) ∧
    (get_file decode (get_file decode s id hint).2 id hint).1 = Except.error err ∧
    (get_file decode (get_file decode s id hint).2 id hint).2.invocations
      = s.invocations ++ [id, id] ∧
    (get_file decode (get_file decode s id hint).2 id hint).2.memory_files
      = s.memory_files := by
  refine ⟨?_, ?_, ?_, ?_⟩ <;>
    simp [get_file, hmiss, hdec]

/-- Witness for C9: a failing decode of id 1 returns the error and
stores nothing; the invocation is logged. -/
theorem get_file_decoder_failure_witness :
    decodeFail 1 "Mlvl" = Except.error "parse error" ∧
    get_file decodeFail (⟨[], [], []⟩ : OurAssetManager Nat) 1 "Mlvl"
      = (Except.error "parse error", ⟨[], [1], []⟩) :=
  ⟨rfl, (get_file_decoder_failure decodeFail ⟨[], [], []⟩ 1 "Mlvl" "parse error" rfl rfl).1⟩

@[simp]
theorem depth_fieldRow (d : Nat) (n : String) (v : PValue) : (fieldRow d n v).depth = d := rfl

theorem render_property_depth_le (e : List String → Bool) (path : List String) (depth : Nat)
    (fs : BaseProperty) : ∀ r ∈ _render_property e path depth fs, depth ≤ r.depth := by
  refine _render_property.induct e
    (fun path depth fs => ∀ r ∈ _render_property e path depth fs, depth ≤ r.depth)
    ?_ ?_ ?_ path depth fs
  · intro path depth
    simp [_render_property]
  · intro path depth n tn tx rest ih r hr
    rw [_render_property] at hr
    rcases List.mem_cons.mp hr with hr | hr
    · subst hr
      simp
    · exact ih r hr
  · intro path depth n tn cfs rest ih1 ih2 r hr
    rw [_render_property] at hr
    rcases List.mem_cons.mp hr with hr | hr
    · subst hr
      simp
    · rcases List.mem_append.mp hr with hr | hr
      · by_cases he : e (path ++ [n]) = true
        · rw [if_pos he] at hr
          exact Nat.le_of_succ_le (ih1 r hr)
        · rw [if_neg he] at hr
          simp at hr
      · exact ih2 r hr

/-- Claim C6: the walk of `_render_property` emits exactly one row per
declared field, in declared order, each carrying the field name, the
runtime type name and the textual value or the `"--"` placeholder
(filtering the output to the current depth recovers exactly the per-field
rows, whatever the expansion state); and an expanded composite field
additionally renders its own fields one level deeper, right after its
row and before the sibling rows, which are unaffected. -/
theorem render_property_rows :
    (∀ (e : List String → Bool) (path : List String) (depth : Nat) (fs : BaseProperty),
      (_render_property e path depth fs).filter (fun r => r.depth == depth)
        = fs.map (fun f => fieldRow depth f.1 f.2)) ∧
    (∀ (e : List String → Bool) (path : List String) (depth : Nat) (n tn : String)
      (cfs : List (String × PValue)) (rest : BaseProperty), e (path ++ [n]) = true →
      _render_property e path depth ((n, PValue.prop tn cfs) :: rest)
        = fieldRow depth n (PValue.prop tn cfs) ::
            (_render_property e (path ++ [n]) (depth + 1) cfs
              ++ _render_property e path depth rest)) := by
  constructor
  · intro e path depth fs
    refine _render_property.induct e
      (fun path depth fs =>
        (_render_property e path depth fs).filter (fun r => r.depth == depth)
          = fs.map (fun f => fieldRow depth f.1 f.2))
      ?_ ?_ ?_ path depth fs
    · intro path depth
      simp [_render_property]
    · intro path depth n tn tx rest ih
      rw [_render_property]
      simp [List.filter_cons, ih]
    · intro path depth n tn cfs rest ih1 ih2
      have hnil : ((if e (path ++ [n]) then
          _render_property e (path ++ [n]) (depth + 1) cfs else []).filter
            (fun r => r.depth == depth)) = [] := by
        rw [List.filter_eq_nil_iff]
        intro r hr
        by_cases he : e (path ++ [n]) = true
        · rw [if_pos he] at hr
          have := render_property_depth_le e (path ++ [n]) (depth + 1) cfs r hr
          simp only [beq_iff_eq]
          omega
        · rw [if_neg he] at hr
          simp at hr
      rw [_render_property]
      simp [List.filter_cons, List.filter_append, hnil, ih2]
  · intro e path depth n tn cfs rest h
    rw [_render_property, if_pos h]

/-- Witness for C6 at the specification example `{a : leaf, b :
composite}` with `b` expanded: the depth-0 rows are exactly the two
field rows, and the expanded `b` inserts its child rows after its own
row without touching its sibling. -/
theorem render_property_rows_witness :
    (_render_property expandB [] 0 exFields).filter (fun r => r.depth == 0)
      = exFields.map (fun f => fieldRow 0 f.1 f.2) ∧
    _render_property expandB [] 0 [("b", PValue.prop "Sub" [("x", PValue.leaf "int" "1")])]
      = fieldRow 0 "b" (PValue.prop "Sub" [("x", PValue.leaf "int" "1")]) ::
          (_render_property expandB ["b"] 1 [("x", PValue.leaf "int" "1")]
            ++ _render_property expandB [] 0 []) :=
  ⟨render_property_rows.1 expandB [] 0 exFields,
   render_property_rows.2 expandB [] 0 "b" "Sub" [("x", PValue.leaf "int" "1")] []
     (by decide)⟩

theorem append_pending_docks_spec :
    ∀ (ws : List DockableWindow) (s : PanelState),
      append_pending_docks s ws
        = { s with pending_new_docks := s.pending_new_docks ++ ws } := by
  intro ws
  induction ws with
  | nil =>
    intro s
    simp [append_pending_docks]
  | cons w rest ih =>
    intro s
    have : append_pending_docks s (w :: rest)
        = append_pending_docks (append_pending_dock s w) rest := rfl
    rw [this, ih, append_pending_dock]
    simp

/-- Claim C1: panel-open calls during a render pass only grow the
pending queue, in call order, and leave the live list untouched; the
frame-boundary flush then appends exactly the queued panels to the live
list, in that order, and empties the queue. -/
theorem panel_open_buffering (s : PanelState) (ws : List DockableWindow)
    (h : s.pending_new_docks = []) :
    (append_pending_docks s ws).dockable_windows = s.dockable_windows ∧
    (append_pending_docks s ws).pending_new_docks = ws ∧
    (_pre_new_frame (append_pending_docks s ws)).dockable_windows
      = s.dockable_windows ++ ws ∧
    (_pre_new_frame (append_pending_docks s ws)).pending_new_docks = [] := by
  rw [append_pending_docks_spec]
  cases ws with
  | nil => simp [_pre_new_frame, h]
  | cons w rest => simp [_pre_new_frame, h]

/-- Witness for C1: two panels opened over a one-window live list are
invisible until the flush, then appear appended in call order. -/
theorem panel_open_buffering_witness :
    (⟨[fileListWindow], []⟩ : PanelState).pending_new_docks = [] ∧
    (append_pending_docks ⟨[fileListWindow], []⟩
        [_create_dock_window_for_area ⟨"Hall", 1, []⟩,
         _create_dock_window_for_area ⟨"Deck", 2, []⟩]).dockable_windows
      = [fileListWindow] ∧
    (_pre_new_frame (append_pending_docks ⟨[fileListWindow], []⟩
        [_create_dock_window_for_area ⟨"Hall", 1, []⟩,
         _create_dock_window_for_area ⟨"Deck", 2, []⟩])).dockable_windows
      = [fileListWindow] ++
          [_create_dock_window_for_area ⟨"Hall", 1, []⟩,
           _create_dock_window_for_area ⟨"Deck", 2, []⟩] :=
  ⟨rfl,
   (panel_open_buffering ⟨[fileListWindow], []⟩
     [_create_dock_window_for_area ⟨"Hall", 1, []⟩,
      _create_dock_window_for_area ⟨"Deck", 2, []⟩] rfl).1,
   (panel_open_buffering ⟨[fileListWindow], []⟩
     [_create_dock_window_for_area ⟨"Hall", 1, []⟩,
      _create_dock_window_for_area ⟨"Deck", 2, []⟩] rfl).2.2.1⟩

/-- Claim C10: the flush never removes, reorders or replaces live
panels: the new live list is the old one with the queue appended after
it, the queue is empty afterwards, and an empty queue leaves the state
untouched. -/
theorem pre_new_frame_append_only (s : PanelState) :
    (_pre_new_frame s).dockable_windows = s.dockable_windows ++ s.pending_new_docks ∧
    (_pre_new_frame s).pending_new_docks = [] ∧
    (s.pending_new_docks = [] → _pre_new_frame s = s) := by
  cases h : s.pending_new_docks with
  | nil => simp [_pre_new_frame, h]
  | cons w rest => simp [_pre_new_frame, h]

/-- Witness for C10: flushing a state with an empty queue returns it
unchanged. -/
theorem pre_new_frame_append_only_witness :
    (⟨[fileListWindow], []⟩ : PanelState).pending_new_docks = [] ∧
    _pre_new_frame ⟨[fileListWindow], []⟩ = ⟨[fileListWindow], []⟩ :=
  ⟨rfl, (pre_new_frame_append_only ⟨[fileListWindow], []⟩).2.2 rfl⟩

/-- Claim C3 is a code bug: when classification raises during
`load_iso`, the exception propagates, but `asset_manager` has already
been replaced by a fresh empty cache while `mlvls` still holds the
previous index — a partial replacement of the session, where the claim
and the specification require the previous cache and index both intact. -/
theorem load_iso_partial_replacement :
    (load_iso failingOps prevSession).2 = some "unable to classify" ∧
    (load_iso failingOps prevSession).1.mlvls = prevSession.mlvls ∧
    (load_iso failingOps prevSession).1.asset_manager = some ⟨[], [], []⟩ ∧
    (load_iso failingOps prevSession).1.asset_manager ≠ prevSession.asset_manager := by
  refine ⟨rfl, rfl, rfl, ?_⟩
  decide

/-- Counterexample to C4 as stated: the container enumerates ids 1 and
2, the load succeeds, yet id 2 (of type `TXTR`) does not appear in the
constructed index `mlvls` — the index is already filtered to MLVL
entries at construction time. -/
theorem asset_index_counterexample :
    smallOps.all_asset_ids = Except.ok [1, 2] ∧
    (load_iso smallOps (⟨none, []⟩ : GuiState Nat)).2 = none ∧
    (load_iso smallOps (⟨none, []⟩ : GuiState Nat)).1.mlvls = [1] ∧
    2 ∉ (load_iso smallOps (⟨none, []⟩ : GuiState Nat)).1.mlvls := by
  refine ⟨rfl, rfl, rfl, ?_⟩
  decide

theorem filterMlvl_ok (g : Nat → Except String String) :
    ∀ ids : List Nat, (∀ i ∈ ids, ∃ t, g i = Except.ok t) →
      filterMlvl g ids = Except.ok (ids.filter (isMlvl g)) := by
  intro ids
  induction ids with
  | nil => intro _; rfl
  | cons i rest ih =>
    intro h
    obtain ⟨t, hg⟩ := h i (List.mem_cons_self i rest)
    have hrest := ih (fun j hj => h j (List.mem_cons_of_mem i hj))
    by_cases ht : t = "MLVL" <;>
      simp [filterMlvl, hg, hrest, isMlvl, List.filter_cons, ht]

/-- Claim C4, amended: after a successful load, the index `mlvls`
contains, in the order the provider enumerated them, exactly the
identifiers whose declared type is `MLVL`; identifiers of other types
are excluded because the type restriction is applied inside the index
construction in `load_iso`, not as a later caller-side projection. -/
theorem load_iso_index_filtered {Node : Type} (ops : ContainerOps) (s : GuiState Node)
    (ids : List Nat) (hEnum : ops.all_asset_ids = Except.ok ids)
    (hOk : ∀ i ∈ ids, ∃ t, ops.get_asset_type i = Except.ok t) :
    (load_iso ops s).2 = none ∧
    (load_iso ops s).1.mlvls = ids.filter (isMlvl ops.get_asset_type) ∧
    List.Sublist (load_iso ops s).1.mlvls ids ∧
    (ids.Nodup → (load_iso ops s).1.mlvls.Nodup) ∧
    (∀ i, i ∈ (load_iso ops s).1.mlvls ↔
      i ∈ ids ∧ isMlvl ops.get_asset_type i = true) := by
  have hf := filterMlvl_ok ops.get_asset_type ids hOk
  have hload : load_iso ops s
      = (⟨some ⟨[], [], []⟩, ids.filter (isMlvl ops.get_asset_type)⟩, none) := by
    simp [load_iso, buildMlvls, hEnum, hf]
  rw [hload]
  refine ⟨rfl, rfl, List.filter_sublist ids, fun hn => hn.filter _, fun i => ?_⟩
  exact List.mem_filter

/-- Witness for C4 amended: loading the two-id container yields index
`[1]`, the filter of the enumeration by declared type `MLVL`. -/
theorem load_iso_index_filtered_witness :
    (load_iso smallOps (⟨none, []⟩ : GuiState Nat)).2 = none ∧
    (load_iso smallOps (⟨none, []⟩ : GuiState Nat)).1.mlvls
      = [1, 2].filter (isMlvl smallOps.get_asset_type) :=
  ⟨(load_iso_index_filtered smallOps ⟨none, []⟩ [1, 2] rfl
      (fun i _ => ⟨if i = 1 then "MLVL" else "TXTR", rfl⟩)).1,
   (load_iso_index_filtered smallOps ⟨none, []⟩ [1, 2] rfl
      (fun i _ => ⟨if i = 1 then "MLVL" else "TXTR", rfl⟩)).2.1⟩

/-- Counterexample to C7 as stated: two structurally distinct areas
(different MREA asset ids) with the same display name receive identical
panel titles — an area panel title is the bare area name and does not
combine the identifier or the containing scope. -/
theorem panel_title_counterexample :
    (_create_dock_window_for_area ⟨"Hall", 1, []⟩).label
      = (_create_dock_window_for_area ⟨"Hall", 2, []⟩).label ∧
    (⟨"Hall", 1, []⟩ : Area).mrea_asset_id ≠ (⟨"Hall", 2, []⟩ : Area).mrea_asset_id := by
  refine ⟨rfl, ?_⟩
  decide

/-- Claim C7, amended: only object-instance panels combine entity name,
identifier and containing-scope name in the title (the f-string
`"{name} - {id} ({area})"`); area panels are titled by the area name
alone, so same-named areas share a title; world panels are titled by the
world name alone, falling back to `"MLVL "` plus the zero-padded
lowercase-hex asset id when the name is unavailable. -/
theorem panel_titles_amended (area : Area) (inst : ScriptInstance) (a₁ a₂ : Area)
    (mlvl : Mlvl) (mlvl_id : Nat) (h : a₁.name = a₂.name) :
    (_create_dock_window_for_instance area inst).label
      = inst.name ++ " - " ++ toString inst.id ++ " (" ++ area.name ++ ")" ∧
    (_create_dock_window_for_area a₁).label = (_create_dock_window_for_area a₂).label ∧
    (∀ w, mlvl.world_name = Except.ok w →
      (_create_dock_window_for_mlvl mlvl mlvl_id).label = w) ∧
    (∀ u, mlvl.world_name = Except.error u →
      (_create_dock_window_for_mlvl mlvl mlvl_id).label = "MLVL " ++ hex8 mlvl_id) := by
  refine ⟨rfl, h, ?_, ?_⟩ <;>
    · intro x hx
      simp [_create_dock_window_for_mlvl, hx]

/-- Witness for C7 amended at concrete panels: the instance title
combines all three components, and the fallback world title uses the
hex id. -/
theorem panel_titles_amended_witness :
    (⟨"Hall", 1, []⟩ : Area).name = (⟨"Hall", 2, []⟩ : Area).name ∧
    (_create_dock_window_for_instance ⟨"Hall", 1, []⟩
        ⟨"Door", 12, "Door", Except.error "x"⟩).label
      = "Door" ++ " - " ++ toString (12 : Nat) ++ " (" ++ "Hall" ++ ")" ∧
    (_create_dock_window_for_mlvl ⟨Except.error UnknownAssetId.mk, []⟩ 255).label
      = "MLVL " ++ hex8 255 :=
  ⟨rfl,
   (panel_titles_amended ⟨"Hall", 1, []⟩ ⟨"Door", 12, "Door", Except.error "x"⟩
      ⟨"Hall", 1, []⟩ ⟨"Hall", 2, []⟩ ⟨Except.error UnknownAssetId.mk, []⟩ 255 rfl).1,
   (panel_titles_amended ⟨"Hall", 1, []⟩ ⟨"Door", 12, "Door", Except.error "x"⟩
      ⟨"Hall", 1, []⟩ ⟨"Hall", 2, []⟩ ⟨Except.error UnknownAssetId.mk, []⟩ 255 rfl).2.2.2
     UnknownAssetId.mk rfl⟩

/-- Counterexample to C8 as stated: the core registers the raw renderer
as the panel callback and catches nothing around it, so a failing
`get_properties` escapes the panel callback instead of being caught at a
per-panel dispatch boundary inside the core. -/
theorem render_failure_not_caught :
    _render_script_instance (fun _ => false) brokenInstance = Except.error "boom" ∧
    (_create_dock_window_for_instance ⟨"Hall", 1, []⟩ brokenInstance).gui_function
      = GuiFn.render_script_instance brokenInstance :=
  ⟨rfl, rfl⟩

/-- Claim C8, amended: the core installs no per-panel exception
handling — the callback bound into an instance panel is exactly the raw
renderer, whose failure propagates unchanged to the external windowing
backend that dispatches the panels; the core itself never drops a panel:
its only live-list mutation keeps every live panel. -/
theorem render_failure_propagates (area : Area) (inst : ScriptInstance)
    (e : List String → Bool) (err : String) (h : inst.get_properties = Except.error err) :
    (_create_dock_window_for_instance area inst).gui_function
      = GuiFn.render_script_instance inst ∧
    _render_script_instance e inst = Except.error err ∧
    (∀ s : PanelState, ∀ w ∈ s.dockable_windows, w ∈ (_pre_new_frame s).dockable_windows) := by
  refine ⟨rfl, ?_, ?_⟩
  · simp [_render_script_instance, h]
  · intro s w hw
    unfold _pre_new_frame
    split
    · exact hw
    · simp [hw]

/-- Witness for C8 amended: the broken instance's failure comes out of
the renderer unchanged. -/
theorem render_failure_propagates_witness :
    brokenInstance.get_properties = Except.error "boom" ∧
    _render_script_instance (fun _ => true) brokenInstance = Except.error "boom" :=
  ⟨rfl, (render_failure_propagates ⟨"Hall", 1, []⟩ brokenInstance (fun _ => true)
      "boom" rfl).2.1⟩

end Pwime
